import Mathlib

/-!
# Mapty: the workout model and the workout store

A shallow embedding of `script.js`: the classes `Workout`, `Running` and
`Cycling`, and the part of the controller class `App` that validates a form
submission, appends to `#workouts`, looks a workout up by id and moves the
list through `localStorage`.

Conventions of the embedding.

* A JavaScript number is a `JSNum`: a rational (exact arithmetic stands for
  the IEEE double arithmetic of the engine), `NaN`, `+Infinity` or
  `-Infinity`.  The two zeros are identified; they are `===`-equal.
* The clock is read twice by a constructor (`new Date()` and `Date.now()`);
  both readings are inputs of the embedding.
* The text kept in `localStorage` is represented by what `JSON.parse` makes of
  it: the JSON value it denotes, or the fact that the parser rejects it.
* The DOM and the Leaflet map are outside the embedding.  Of the rendering
  functions only the places that can throw are kept, and
  `localStorage.setItem` is taken to accept the item.
* The strings the program handles (`running`, `cycling`, decimal digits, month
  names) are ASCII, so a character is a UTF-16 code unit.
-/

namespace Mapty

/-! ## JavaScript numbers -/

/-- A JavaScript number. -/
inductive JSNum where
  | fin (q : ℚ)
  | nan
  | posInf
  | negInf
  deriving DecidableEq

namespace JSNum

/-- The function `Number.isFinite` on a number. -/
def isFinite : JSNum → Bool
  | fin _ => true
  | _ => false

/-- The comparison `x > 0`. -/
def gtZero : JSNum → Bool
  | fin q => decide (0 < q)
  | posInf => true
  | _ => false

/-- The comparison `x < 0`. -/
def ltZero : JSNum → Bool
  | fin q => decide (q < 0)
  | negInf => true
  | _ => false

/-- The operator `/` on numbers. -/
def div : JSNum → JSNum → JSNum
  | nan, _ => nan
  | _, nan => nan
  | fin a, fin b =>
    if b = 0 then (if a = 0 then nan else if 0 < a then posInf else negInf)
    else fin (a / b)
  | fin _, posInf => fin 0
  | fin _, negInf => fin 0
  | posInf, fin b => if b < 0 then negInf else posInf
  | negInf, fin b => if b < 0 then posInf else negInf
  | posInf, posInf => nan
  | posInf, negInf => nan
  | negInf, posInf => nan
  | negInf, negInf => nan

end JSNum

/-! ## Dates, errors and values -/

/-- A `Date` object, by the three observations the program makes of it:
`getMonth()` and `getDate()` (local time) in `_setDescription`, and
`toISOString()` when `JSON.stringify` serialises the `date` field. -/
structure JSDate where
  getMonth : Fin 12
  getDate : Nat
  toISOString : String
  deriving DecidableEq

/-- The exceptions that the modelled code can raise. -/
inductive JSError where
  | typeError
  | syntaxError
  deriving DecidableEq

/-- A JavaScript value: what an own property of a workout may hold and what
`JSON.parse` may return (which never contains a `date`).  A missing property
(`undefined`) is `none` in `Option JSVal`. -/
inductive JSVal where
  | null
  | bool (b : Bool)
  | num (x : JSNum)
  | str (s : String)
  | date (d : JSDate)
  | arr (items : List JSVal)
  | obj (fields : List (String × JSVal))

namespace JSVal

/-- Property read `v[key]` on a non-nullish value; `none` is `undefined`.
Only objects have the properties the program asks for. -/
def get? : JSVal → String → Option JSVal
  | obj fields, key => (fields.find? (fun p => p.1 == key)).map Prod.snd
  | _, _ => none

/-- The coercion `!v` is `false`. -/
def truthy : JSVal → Bool
  | null => false
  | bool b => b
  | num (.fin q) => decide (q ≠ 0)
  | num .nan => false
  | num _ => true
  | str s => decide (s ≠ "")
  | _ => true

mutual
/-- The value that `JSON.parse (JSON.stringify v)` returns: a number that is
not finite becomes `null`, a `Date` becomes its ISO string, arrays and plain
objects are rebuilt member by member in order. -/
def jsonImage : JSVal → JSVal
  | null => null
  | bool b => bool b
  | num x => if x.isFinite then num x else null
  | str s => str s
  | date d => str d.toISOString
  | arr items => arr (jsonImageItems items)
  | obj fields => obj (jsonImageFields fields)
/-- The image of the elements of an array. -/
def jsonImageItems : List JSVal → List JSVal
  | [] => []
  | v :: vs => jsonImage v :: jsonImageItems vs
/-- The image of the properties of an object. -/
def jsonImageFields : List (String × JSVal) → List (String × JSVal)
  | [] => []
  | (k, v) :: kvs => (k, jsonImage v) :: jsonImageFields kvs
end

end JSVal

/-! ## Strings -/

/-- The method `s.slice(start)`: a negative `start` counts from the end. -/
def slice (s : String) (start : Int) : String :=
  let len : Int := s.data.length
  let k : Int := if start < 0 then max (len + start) 0 else min start len
  ⟨s.data.drop k.toNat⟩

/-- The indexing `s[i]`; `none` is `undefined`. -/
def charAt? (s : String) (i : Nat) : Option String :=
  (s.data.get? i).map String.singleton

/-- The method `s.toUpperCase()`, on the ASCII letters. -/
def toUpperCase (s : String) : String :=
  ⟨s.data.map Char.toUpper⟩

/-- A template-literal hole that holds a string or `undefined`. -/
def interpolate : Option String → String
  | some s => s
  | none => "undefined"

/-! ## The workout classes -/

/-- The two clock readings of a constructor call: `new Date()` for the field
`date` and `Date.now()` (milliseconds since the epoch) for the field `id`. -/
structure Clock where
  date : JSDate
  now : Nat

/-- The array `[lat, lng]` of a map click; Leaflet supplies finite numbers. -/
structure LatLng where
  lat : ℚ
  lng : ℚ
  deriving DecidableEq

/-- An instance of `Running` or `Cycling`: its own properties, in the order in
which construction creates them.  A property not yet (or never) assigned is
`none`. -/
structure Workout where
  date : JSDate
  id : String
  click : Nat
  coords : LatLng
  distance : JSNum
  duration : JSNum
  type : Option String
  cadence : Option JSNum
  pace : Option JSNum
  elevGain : Option JSNum
  speed : Option JSNum
  description : Option String
  deriving DecidableEq

/-- The table `months` of `_setDescription`. -/
def months : List String :=
  ["January", "February", "March", "April", "May", "June", "July", "August",
   "September", "October", "November", "December"]

namespace Workout

/-- The field initialisers and the constructor body of class `Workout`. -/
def new (clk : Clock) (coords : LatLng) (distance duration : JSNum) : Workout :=
  { date := clk.date
    id := slice (toString clk.now ++ "") (-10)
    click := 0
    coords := coords
    distance := distance
    duration := duration
    type := none, cadence := none, pace := none, elevGain := none, speed := none,
    description := none }

/-- The method `_setDescription`.  Reading `[0]` of an undefined `type`, or
calling `toUpperCase` on an undefined first character, throws. -/
def _setDescription (this : Workout) : Except JSError Workout :=
  match this.type with
  | none => .error .typeError
  | some type =>
    match charAt? type 0 with
    | none => .error .typeError
    | some c =>
      .ok { this with
        description := some (toUpperCase c ++ slice type 1 ++ " on " ++
          interpolate (months.get? this.date.getMonth.val) ++ " " ++
          toString this.date.getDate) }

/-- The method `clicks`. -/
def clicks (this : Workout) : Workout :=
  { this with click := this.click + 1 }

/-- The own enumerable properties of an instance, in creation order. -/
def ownProps (w : Workout) : List (String × JSVal) :=
  [("date", .date w.date), ("id", .str w.id), ("click", .num (.fin w.click)),
   ("coords", .arr [.num (.fin w.coords.lat), .num (.fin w.coords.lng)]),
   ("distance", .num w.distance), ("duration", .num w.duration)]
  ++ (w.type.map fun t => ("type", JSVal.str t)).toList
  ++ (w.cadence.map fun x => ("cadence", JSVal.num x)).toList
  ++ (w.pace.map fun x => ("pace", JSVal.num x)).toList
  ++ (w.elevGain.map fun x => ("elevGain", JSVal.num x)).toList
  ++ (w.speed.map fun x => ("speed", JSVal.num x)).toList
  ++ (w.description.map fun d => ("description", JSVal.str d)).toList

end Workout

namespace Running

/-- The method `calcPace` (minutes per kilometre); the updated instance. -/
def calcPace (this : Workout) : Workout :=
  { this with pace := some (this.duration.div this.distance) }

/-- The expression `new Running(coords, distance, duration, cadence)`. -/
def new (clk : Clock) (coords : LatLng) (distance duration cadence : JSNum) :
    Except JSError Workout :=
  let this := Workout.new clk coords distance duration
  let this := { this with type := some "running" }
  let this := { this with cadence := some cadence }
  let this := calcPace this
  this._setDescription

end Running

namespace Cycling

/-- The method `calcSpeed` (kilometres per hour); the updated instance. -/
def calcSpeed (this : Workout) : Workout :=
  { this with speed := some (this.distance.div (this.duration.div (.fin 60))) }

/-- The expression `new Cycling(coords, distance, duration, elevGain)`. -/
def new (clk : Clock) (coords : LatLng) (distance duration elevGain : JSNum) :
    Except JSError Workout :=
  let this := Workout.new clk coords distance duration
  let this := { this with type := some "cycling" }
  let this := { this with elevGain := some elevGain }
  let this := calcSpeed this
  this._setDescription

end Cycling

/-! ## The controller `App` -/

/-- An element of `#workouts`: an instance pushed by `_newWorkout`, or a plain
value that `_getLocalStorage` took from `JSON.parse`. -/
inductive Entry where
  | live (w : Workout)
  | data (v : JSVal)

namespace Entry

/-- The entry as a value: an instance shows its own properties. -/
def toVal : Entry → JSVal
  | live w => .obj w.ownProps
  | data v => v

/-- Whether a property read on the entry throws (only `null` can occur). -/
def isNullish : Entry → Bool
  | data .null => true
  | _ => false

/-- Property read `entry[key]`; `none` is `undefined`. -/
def get? (e : Entry) (key : String) : Option JSVal :=
  e.toVal.get? key

end Entry

/-- The comparison `v === s` of a property value with a string. -/
def strictEqStr : Option JSVal → String → Bool
  | some (.str t), s => t == s
  | _, _ => false

/-- The string stored under the key `workout`, by what `JSON.parse` makes of
it: the JSON value it denotes, or a text the parser rejects. -/
inductive JSONText where
  | denotes (v : JSVal)
  | malformed (raw : String)

/-- The function `JSON.stringify` on an array or object. -/
def JSON.stringify (v : JSVal) : JSONText :=
  .denotes v.jsonImage

/-- The function `JSON.parse` on the result of `localStorage.getItem`: `null`
(no item) is read as the text `null`. -/
def JSON.parse : Option JSONText → Except JSError JSVal
  | none => .ok .null
  | some (.denotes v) => .ok v
  | some (.malformed _) => .error .syntaxError

/-- The state the controller works on: the private field `#workouts` and the
item of `localStorage` under the key `workout`. -/
structure State where
  workouts : List Entry
  localStorage : Option JSONText

/-- The state of a first visit: `#workouts = []`, nothing stored. -/
def State.initial : State :=
  { workouts := [], localStorage := none }

/-- The values read from the form and from `#mapEvent` by `_newWorkout`; the
numeric fields are the results of the unary `+` on the input texts.  The form
is revealed by `_showForm`, which stores the map click in `#mapEvent` first,
so a submission comes with the coordinates of a click. -/
structure FormInput where
  type : String
  distance : JSNum
  duration : JSNum
  cadence : JSNum
  elevation : JSNum
  latlng : LatLng

/-- How a handler stops early: `return alert(msg)`, or an exception. -/
inductive Abort where
  | alerted (msg : String)
  | threw (e : JSError)
  deriving DecidableEq

/-- A handler of `App`: it may stop early, and the state survives that. -/
abbrev Handler (α : Type) : Type := ExceptT Abort (StateM State) α

/-- An exception of a constructor or helper, raised inside a handler. -/
def liftThrow {α : Type} : Except JSError α → Handler α
  | .ok a => pure a
  | .error e => throw (.threw e)

namespace App

/-- The helper `validInput` of `_newWorkout`. -/
def validInput (input : List JSNum) : Bool :=
  input.all fun int => int.isFinite

/-- The helper `positiveNum` of `_newWorkout`. -/
def positiveNum (input : List JSNum) : Bool :=
  input.all fun int => int.gtZero

/-- The method `_renderWorkoutMarker`: reading `coords` of `undefined`
throws; an instance is handed to Leaflet. -/
def _renderWorkoutMarker : Option Workout → Except JSError Unit
  | none => .error .typeError
  | some _ => .ok ()

/-- The method `_renderWorkout`, as far as it can throw: property reads on
`null`, and `toFixed` called on a `pace` or `speed` that is not a number. -/
def _renderWorkout (workout : Entry) : Except JSError Unit := do
  if workout.isNullish then throw .typeError
  if strictEqStr (workout.get? "type") "running" then
    match workout.get? "pace" with
    | some (.num _) => pure ()
    | _ => throw .typeError
  if strictEqStr (workout.get? "type") "cycling" then
    match workout.get? "speed" with
    | some (.num _) => pure ()
    | _ => throw .typeError

/-- The method `_setLocalStorage`. -/
def _setLocalStorage (s : State) : State :=
  { s with localStorage := some (JSON.stringify (.arr (s.workouts.map Entry.toVal))) }

/-- The method `_newWorkout`, given the clock readings of the constructor it
calls. -/
def _newWorkout (clk : Clock) (f : FormInput) : Handler Unit := do
  let type := f.type
  let distance := f.distance
  let duration := f.duration
  let mut workout : Option Workout := none
  if type = "running" then
    let cadence := f.cadence
    if !validInput [distance, cadence, duration] ||
        !positiveNum [distance, cadence, duration] then
      throw (.alerted "That is not a valid number")
    workout := some (← liftThrow (Running.new clk f.latlng distance duration cadence))
  if type = "cycling" then
    let eleGain := f.elevation
    if !validInput [duration, eleGain, distance] ||
        !positiveNum [distance, duration] then
      throw (.alerted "That is not a valid number")
    workout := some (← liftThrow (Cycling.new clk f.latlng distance duration eleGain))
  liftThrow (_renderWorkoutMarker workout)
  match workout with
  | none => throw (.threw .typeError)
  | some w =>
    modify fun s => { s with workouts := s.workouts ++ [.live w] }
    liftThrow (_renderWorkout (.live w))
    modify _setLocalStorage

/-- The method `_getLocalStorage`, run by the constructor of `App`: an
exception leaves the constructor, and no `App` results. -/
def _getLocalStorage (s : State) : Except JSError State := do
  let data ← JSON.parse s.localStorage
  if !data.truthy then return s
  match data with
  | .arr items =>
    let s := { s with workouts := items.map Entry.data }
    s.workouts.forM _renderWorkout
    return s
  | _ => throw .typeError

/-- The lookup of `_goToPopup`: `#workouts.find(ele => ele.id === id)`. -/
def find (workouts : List Entry) (id : String) : Except JSError (Option Entry) :=
  match workouts with
  | [] => .ok none
  | ele :: rest =>
    if ele.isNullish then .error .typeError
    else if strictEqStr (ele.get? "id") id then .ok (some ele)
    else find rest id

/-- The method `_goToPopup`, for a click whose closest `.workout` element
carries `data-id` (or for a click outside every such element): the entry
whose coordinates the map is moved to.  Reading `coords` of `undefined`, when
no entry matches, throws. -/
def _goToPopup (s : State) (workEl : Option String) : Except JSError (Option Entry) :=
  match workEl with
  | none => .ok none
  | some id => do
    match ← find s.workouts id with
    | none => throw .typeError
    | some workout => return some workout

end App

/-! ## Notions of the specification -/

/-- The English month name for a month index, January for 0 up to December
for 11, as the specification lists them. -/
def monthName : Fin 12 → String
  | 0 => "January" | 1 => "February" | 2 => "March" | 3 => "April"
  | 4 => "May" | 5 => "June" | 6 => "July" | 7 => "August"
  | 8 => "September" | 9 => "October" | 10 => "November" | 11 => "December"

/-- The kind with its first letter uppercased and the remainder unchanged. -/
def capitalized (s : String) : String :=
  match s.data with
  | [] => ""
  | c :: cs => ⟨c.toUpper :: cs⟩

/-- The label of the specification: the capitalised kind, ` on `, the month
name, a space and the day of the month. -/
def describe (type : String) (date : JSDate) : String :=
  capitalized type ++ " on " ++ monthName date.getMonth ++ " " ++ toString date.getDate

/-- A required numeric field as the specification wants it: a finite number
that is strictly positive. -/
def finitePositive : JSNum → Bool
  | .fin q => decide (0 < q)
  | _ => false

/-- The outcome `InvalidInput` of a submission: the alert of `_newWorkout`. -/
def invalidInput : Except Abort Unit :=
  .error (.alerted "That is not a valid number")

/-- A clock reading on 14 April 2024, 09:30 UTC. -/
def clockApril14 : Clock :=
  { date := { getMonth := 3, getDate := 14, toISOString := "2024-04-14T09:30:00.000Z" }
    now := 1713087000000 }

/-- A clock reading on 14 November 2023, 22:13:20 UTC. -/
def clockNov2023 : Clock :=
  { date := { getMonth := 10, getDate := 14, toISOString := "2023-11-14T22:13:20.000Z" }
    now := 1700000000000 }

/-- A clock reading on 9 March 2024, 16:00 UTC: ten thousand million
milliseconds (about 115.7 days) after `clockNov2023`. -/
def clockMar2024 : Clock :=
  { date := { getMonth := 2, getDate := 9, toISOString := "2024-03-09T16:00:00.000Z" }
    now := 1710000000000 }

/-- A running form: 5.2 km in 24 min at 178 steps per minute. -/
def formRun : FormInput :=
  { type := "running", distance := .fin (26 / 5), duration := .fin 24, cadence := .fin 178,
    elevation := .fin 0, latlng := ⟨103 / 2, -3 / 25⟩ }

/-- A running form with distance -1. -/
def formNegativeDistance : FormInput :=
  { type := "running", distance := .fin (-1), duration := .fin 24, cadence := .fin 178,
    elevation := .fin 0, latlng := ⟨0, 0⟩ }

/-- A cycling form with elevation gain zero: 20 km in 60 min. -/
def formFlat : FormInput :=
  { type := "cycling", distance := .fin 20, duration := .fin 60, cadence := .fin 0,
    elevation := .fin 0, latlng := ⟨103 / 2, -3 / 25⟩ }

/-- A cycling form with a negative elevation gain (a descent of 5 m). -/
def formDescent : FormInput :=
  { type := "cycling", distance := .fin 20, duration := .fin 60, cadence := .fin 0,
    elevation := .fin (-5), latlng := ⟨103 / 2, -3 / 25⟩ }

/-- The instance that `formRun` gives at `clockNov2023`. -/
def runNov2023 : Workout :=
  { date := clockNov2023.date, id := "0000000000", click := 0, coords := ⟨103 / 2, -3 / 25⟩,
    distance := .fin (26 / 5), duration := .fin 24, type := some "running",
    cadence := some (.fin 178), pace := some (.fin (60 / 13)), elevGain := none, speed := none,
    description := some "Running on November 14" }

/-- The instance that `formFlat` gives at `clockMar2024`. -/
def rideMar2024 : Workout :=
  { date := clockMar2024.date, id := "0000000000", click := 0, coords := ⟨103 / 2, -3 / 25⟩,
    distance := .fin 20, duration := .fin 60, type := some "cycling",
    cadence := none, pace := none, elevGain := some (.fin 0), speed := some (.fin 20),
    description := some "Cycling on March 9" }

/-- The state after `formRun` is submitted at `clockNov2023` on a first visit. -/
def storeAfterOne : State :=
  ((App._newWorkout clockNov2023 formRun).run State.initial).2

/-- The state after `formFlat` is then submitted at `clockMar2024`. -/
def storeAfterTwo : State :=
  ((App._newWorkout clockMar2024 formFlat).run storeAfterOne).2

/-! ## The constructors -/

theorem months_get (m : Fin 12) : interpolate (months.get? m.val) = monthName m := by
  fin_cases m <;> rfl

theorem capitalized_eq (type : String) (c : Char) (cs : List Char) (h : type.data = c :: cs) :
    charAt? type 0 = some (String.singleton c) ∧
      toUpperCase (String.singleton c) ++ slice type 1 = capitalized type := by
  constructor
  · simp [charAt?, h]
  · apply String.ext
    simp [toUpperCase, slice, capitalized, h, String.singleton]

theorem setDescription_eq (this : Workout) (type : String) (c : Char) (cs : List Char)
    (ht : this.type = some type) (h : type.data = c :: cs) :
    this._setDescription = .ok { this with description := some (describe type this.date) } := by
  obtain ⟨h1, h2⟩ := capitalized_eq type c cs h
  simp only [Workout._setDescription, ht, h1, h2, months_get, describe]

theorem running_new_eq (clk : Clock) (coords : LatLng) (distance duration cadence : JSNum) :
    Running.new clk coords distance duration cadence = .ok
      { date := clk.date, id := slice (toString clk.now ++ "") (-10), click := 0,
        coords := coords, distance := distance, duration := duration,
        type := some "running", cadence := some cadence,
        pace := some (duration.div distance), elevGain := none, speed := none,
        description := some (describe "running" clk.date) } := by
  unfold Running.new
  simp only []
  rw [setDescription_eq _ "running" 'r' "unning".data rfl rfl]
  rfl

theorem cycling_new_eq (clk : Clock) (coords : LatLng) (distance duration elevGain : JSNum) :
    Cycling.new clk coords distance duration elevGain = .ok
      { date := clk.date, id := slice (toString clk.now ++ "") (-10), click := 0,
        coords := coords, distance := distance, duration := duration,
        type := some "cycling", cadence := none, pace := none,
        elevGain := some elevGain, speed := some (distance.div (duration.div (.fin 60))),
        description := some (describe "cycling" clk.date) } := by
  unfold Cycling.new
  simp only []
  rw [setDescription_eq _ "cycling" 'c' "ycling".data rfl rfl]
  rfl

/-- C9: every constructed workout, running or cycling, carries the
description made of the capitalised type, ` on `, the month name of the
creation date and its day of the month; it is a function of the type and the
creation date alone, and `running` on day 14 of month index 3 reads
`Running on April 14`. -/
theorem description_of_constructed (clk : Clock) (coords : LatLng)
    (distance duration extra : JSNum) :
    (∃ w, Running.new clk coords distance duration extra = .ok w ∧
      w.type = some "running" ∧ w.date = clk.date ∧
      w.description = some (describe "running" clk.date)) ∧
    (∃ w, Cycling.new clk coords distance duration extra = .ok w ∧
      w.type = some "cycling" ∧ w.date = clk.date ∧
      w.description = some (describe "cycling" clk.date)) ∧
    capitalized "running" = "Running" ∧ capitalized "cycling" = "Cycling" ∧
    (∀ iso, describe "running" ⟨3, 14, iso⟩ = "Running on April 14") :=
  ⟨⟨_, running_new_eq _ _ _ _ _, rfl, rfl, rfl⟩, ⟨_, cycling_new_eq _ _ _ _ _, rfl, rfl, rfl⟩,
    by decide, by decide, fun _ => by simp only [describe]; decide⟩

/-! ## Form submission -/

theorem running_render_ok (clk : Clock) (coords : LatLng) (distance duration cadence : JSNum)
    (w : Workout) (h : Running.new clk coords distance duration cadence = .ok w) :
    App._renderWorkout (.live w) = .ok () := by
  rw [running_new_eq] at h
  cases h
  simp [App._renderWorkout, Entry.isNullish, Entry.get?, Entry.toVal, JSVal.get?,
    Workout.ownProps, strictEqStr]
  rfl

theorem cycling_render_ok (clk : Clock) (coords : LatLng) (distance duration elevGain : JSNum)
    (w : Workout) (h : Cycling.new clk coords distance duration elevGain = .ok w) :
    App._renderWorkout (.live w) = .ok () := by
  rw [cycling_new_eq] at h
  cases h
  simp [App._renderWorkout, Entry.isNullish, Entry.get?, Entry.toVal, JSVal.get?,
    Workout.ownProps, strictEqStr]
  rfl

/-- A running submission: the guard, then construction, push and save. -/
theorem newWorkout_running (clk : Clock) (f : FormInput) (s : State) (h : f.type = "running") :
    (App._newWorkout clk f).run s =
      if App.validInput [f.distance, f.cadence, f.duration] &&
          App.positiveNum [f.distance, f.cadence, f.duration] then
        match Running.new clk f.latlng f.distance f.duration f.cadence with
        | .ok w => (.ok (), App._setLocalStorage { s with workouts := s.workouts ++ [.live w] })
        | .error e => (.error (.threw e), s)
      else (invalidInput, s) := by
  have hr := running_render_ok clk f.latlng f.distance f.duration f.cadence
  simp only [App._newWorkout, h]
  rw [running_new_eq] at hr ⊢
  have hr := hr _ rfl
  by_cases hv : App.validInput [f.distance, f.cadence, f.duration] = true <;>
  by_cases hp : App.positiveNum [f.distance, f.cadence, f.duration] = true <;>
  simp [hv, hp, hr, liftThrow, App._renderWorkoutMarker] <;> rfl

/-- A cycling submission: the guard, then construction, push and save. -/
theorem newWorkout_cycling (clk : Clock) (f : FormInput) (s : State) (h : f.type = "cycling") :
    (App._newWorkout clk f).run s =
      if App.validInput [f.duration, f.elevation, f.distance] &&
          App.positiveNum [f.distance, f.duration] then
        match Cycling.new clk f.latlng f.distance f.duration f.elevation with
        | .ok w => (.ok (), App._setLocalStorage { s with workouts := s.workouts ++ [.live w] })
        | .error e => (.error (.threw e), s)
      else (invalidInput, s) := by
  have hr := cycling_render_ok clk f.latlng f.distance f.duration f.elevation
  simp only [App._newWorkout, h]
  rw [cycling_new_eq] at hr ⊢
  have hr := hr _ rfl
  by_cases hv : App.validInput [f.duration, f.elevation, f.distance] = true <;>
  by_cases hp : App.positiveNum [f.distance, f.duration] = true <;>
  simp [hv, hp, hr, liftThrow, App._renderWorkoutMarker] <;> rfl

/-- A submission of any other type: `workout` stays undefined and
`_renderWorkoutMarker` throws before anything is pushed. -/
theorem newWorkout_other (clk : Clock) (f : FormInput) (s : State)
    (hr : f.type ≠ "running") (hc : f.type ≠ "cycling") :
    (App._newWorkout clk f).run s = (.error (.threw .typeError), s) := by
  simp [App._newWorkout, hr, hc, liftThrow, App._renderWorkoutMarker]
  rfl

theorem running_guard (a b c : JSNum) :
    (App.validInput [a, b, c] && App.positiveNum [a, b, c]) =
      (finitePositive a && finitePositive b && finitePositive c) := by
  cases a <;> cases b <;> cases c <;> simp [App.validInput, App.positiveNum, finitePositive,
    JSNum.isFinite, JSNum.gtZero, Bool.and_assoc]

theorem cycling_guard (duration eleGain distance : JSNum) :
    (App.validInput [duration, eleGain, distance] && App.positiveNum [distance, duration]) =
      (finitePositive distance && finitePositive duration && eleGain.isFinite) := by
  cases duration <;> cases eleGain <;> cases distance <;>
    simp [App.validInput, App.positiveNum, finitePositive, JSNum.isFinite, JSNum.gtZero]

/-- C3: a submission of type `running` is rejected with the alert exactly when
one of distance, duration and cadence is not a finite, strictly positive
number; and a rejected submission leaves the whole state, `#workouts` and the
stored item, as it was. -/
theorem running_rejected_iff (clk : Clock) (f : FormInput) (s : State)
    (h : f.type = "running") :
    (((App._newWorkout clk f).run s).1 = invalidInput ↔
      finitePositive f.distance = false ∨ finitePositive f.duration = false ∨
        finitePositive f.cadence = false) ∧
    (((App._newWorkout clk f).run s).1 = invalidInput →
      ((App._newWorkout clk f).run s).2 = s) := by
  rw [newWorkout_running clk f s h, running_new_eq, running_guard]
  cases hd : finitePositive f.distance <;> cases ht : finitePositive f.duration <;>
    cases hc : finitePositive f.cadence <;> simp [invalidInput]

/-- The example of C3: distance -1, duration 24, cadence 178 is rejected and
the state of a first visit is unchanged. -/
theorem running_rejected_iff_witness :
    ((App._newWorkout clockApril14 formNegativeDistance).run State.initial).1 = invalidInput ∧
    ((App._newWorkout clockApril14 formNegativeDistance).run State.initial).2 = State.initial :=
  have h := running_rejected_iff clockApril14 formNegativeDistance State.initial rfl
  ⟨h.1.mpr (Or.inl rfl), h.2 (h.1.mpr (Or.inl rfl))⟩

/-- C4 as stated does not hold: it is not the case that every cycling
submission whose distance or duration is not finite positive, or whose
elevation gain is not finite or is negative, is rejected with the list
unchanged.  The descent `formDescent` (elevation gain -5) is accepted. -/
theorem cycling_negative_elevation_accepted :
    ¬ ∀ (clk : Clock) (f : FormInput) (s : State), f.type = "cycling" →
      (finitePositive f.distance = false ∨ finitePositive f.duration = false ∨
        f.elevation.isFinite = false ∨ f.elevation.ltZero = true) →
      ((App._newWorkout clk f).run s).1 = invalidInput ∧
        ((App._newWorkout clk f).run s).2.workouts = s.workouts := by
  intro h
  have h1 := (h clockApril14 formDescent State.initial rfl (Or.inr (Or.inr (Or.inr rfl)))).1
  have h2 : ((App._newWorkout clockApril14 formDescent).run State.initial).1 = .ok () := rfl
  rw [h2] at h1
  cases h1

/-- C4, amended: a submission of type `cycling` is rejected with the alert
exactly when distance or duration is not a finite, strictly positive number
or the elevation gain is not finite; a rejected submission leaves the state as
it was; and every finite elevation gain, exactly zero included, with valid
distance and duration is accepted. -/
theorem cycling_rejected_iff (clk : Clock) (f : FormInput) (s : State)
    (h : f.type = "cycling") :
    (((App._newWorkout clk f).run s).1 = invalidInput ↔
      finitePositive f.distance = false ∨ finitePositive f.duration = false ∨
        f.elevation.isFinite = false) ∧
    (((App._newWorkout clk f).run s).1 = invalidInput →
      ((App._newWorkout clk f).run s).2 = s) ∧
    (finitePositive f.distance = true → finitePositive f.duration = true →
      ∀ e : ℚ, f.elevation = .fin e → ((App._newWorkout clk f).run s).1 = .ok ()) := by
  rw [newWorkout_cycling clk f s h, cycling_new_eq, cycling_guard]
  cases hd : finitePositive f.distance <;> cases ht : finitePositive f.duration <;>
    cases he : f.elevation <;> simp [invalidInput, JSNum.isFinite]

/-- The flat ride `formFlat` (elevation gain zero) is accepted. -/
theorem cycling_rejected_iff_witness :
    ((App._newWorkout clockApril14 formFlat).run State.initial).1 = .ok () ∧
    (((App._newWorkout clockApril14 formFlat).run State.initial).1 = invalidInput ↔
      finitePositive formFlat.distance = false ∨ finitePositive formFlat.duration = false ∨
        formFlat.elevation.isFinite = false) :=
  have h := cycling_rejected_iff clockApril14 formFlat State.initial rfl
  ⟨h.2.2 rfl rfl 0 rfl, h.1⟩

/-- C10: an accepted submission leaves `#workouts` as the former list
followed by the new instance `w`: the length grows by one, every earlier
entry keeps its position, `w` is last.  No condition on the former list is
needed, so `w` is added whatever entries are already present. -/
theorem accepted_submission_appends (clk : Clock) (f : FormInput) (s : State)
    (h : ((App._newWorkout clk f).run s).1 = .ok ()) :
    ∃ w,
      ((f.type = "running" ∧
          Running.new clk f.latlng f.distance f.duration f.cadence = .ok w) ∨
        (f.type = "cycling" ∧
          Cycling.new clk f.latlng f.distance f.duration f.elevation = .ok w)) ∧
      ((App._newWorkout clk f).run s).2.workouts = s.workouts ++ [.live w] ∧
      ((App._newWorkout clk f).run s).2.workouts.length = s.workouts.length + 1 ∧
      (∀ i, i < s.workouts.length →
        ((App._newWorkout clk f).run s).2.workouts[i]? = s.workouts[i]?) ∧
      ((App._newWorkout clk f).run s).2.workouts.getLast? = some (.live w) := by
  have key : ∃ w,
      ((f.type = "running" ∧
          Running.new clk f.latlng f.distance f.duration f.cadence = .ok w) ∨
        (f.type = "cycling" ∧
          Cycling.new clk f.latlng f.distance f.duration f.elevation = .ok w)) ∧
      ((App._newWorkout clk f).run s).2.workouts = s.workouts ++ [.live w] := by
    by_cases hr : f.type = "running"
    · obtain ⟨w, hw⟩ : ∃ w, Running.new clk f.latlng f.distance f.duration f.cadence = .ok w :=
        ⟨_, running_new_eq _ _ _ _ _⟩
      rw [newWorkout_running clk f s hr, hw] at h ⊢
      split at h
      · exact ⟨w, Or.inl ⟨hr, rfl⟩, by simp [*, App._setLocalStorage]⟩
      · cases h
    · by_cases hc : f.type = "cycling"
      · obtain ⟨w, hw⟩ :
            ∃ w, Cycling.new clk f.latlng f.distance f.duration f.elevation = .ok w :=
          ⟨_, cycling_new_eq _ _ _ _ _⟩
        rw [newWorkout_cycling clk f s hc, hw] at h ⊢
        split at h
        · exact ⟨w, Or.inr ⟨hc, rfl⟩, by simp [*, App._setLocalStorage]⟩
        · cases h
      · rw [newWorkout_other clk f s hr hc] at h
        cases h
  obtain ⟨w, hw, hs⟩ := key
  refine ⟨w, hw, hs, ?_, ?_, ?_⟩
  · simp [hs]
  · intro i hi
    rw [hs, List.getElem?_append_left hi]
  · simp [hs]

/-- The same form submitted a second time at the same clock reading: the
list already holds an equal entry, and an equal entry is appended all the
same. -/
theorem accepted_submission_appends_witness :
    (∃ w,
      ((formRun.type = "running" ∧ Running.new clockNov2023 formRun.latlng formRun.distance
          formRun.duration formRun.cadence = .ok w) ∨
        (formRun.type = "cycling" ∧ Cycling.new clockNov2023 formRun.latlng formRun.distance
          formRun.duration formRun.elevation = .ok w)) ∧
      ((App._newWorkout clockNov2023 formRun).run storeAfterOne).2.workouts =
        storeAfterOne.workouts ++ [.live w] ∧
      ((App._newWorkout clockNov2023 formRun).run storeAfterOne).2.workouts.length =
        storeAfterOne.workouts.length + 1 ∧
      (∀ i, i < storeAfterOne.workouts.length →
        ((App._newWorkout clockNov2023 formRun).run storeAfterOne).2.workouts[i]? =
          storeAfterOne.workouts[i]?) ∧
      ((App._newWorkout clockNov2023 formRun).run storeAfterOne).2.workouts.getLast? =
        some (.live w)) ∧
    ((App._newWorkout clockNov2023 formRun).run storeAfterOne).2.workouts =
      [.live runNov2023, .live runNov2023] :=
  ⟨accepted_submission_appends clockNov2023 formRun storeAfterOne (by with_unfolding_all rfl),
    by with_unfolding_all rfl⟩

/-! ## Identifiers and lookup -/

/-- The lookup finds a newly appended instance when no earlier entry answers
to its id. -/
theorem find_append_of_fresh (S : List Entry) (w : Workout)
    (hS : ∀ e ∈ S, e.isNullish = false ∧ strictEqStr (e.get? "id") w.id = false) :
    App.find (S ++ [.live w]) w.id = .ok (some (.live w)) := by
  induction S with
  | nil =>
    simp [App.find, Entry.isNullish, Entry.get?, Entry.toVal, JSVal.get?, Workout.ownProps,
      strictEqStr]
  | cons e es ih =>
    have he := hS e (List.mem_cons_self _ _)
    have hes := ih (fun x hx => hS x (List.mem_cons_of_mem _ hx))
    simp [App.find, he.1, he.2, hes]

/-- C8 fails on the code: from the state of a first visit, two accepted
submissions whose clock readings are ten thousand million milliseconds apart
leave two distinct entries with the same id `0000000000`. -/
theorem two_submissions_share_an_id :
    ((App._newWorkout clockNov2023 formRun).run State.initial).1 = .ok () ∧
    ((App._newWorkout clockMar2024 formFlat).run storeAfterOne).1 = .ok () ∧
    storeAfterTwo.workouts = [.live runNov2023, .live rideMar2024] ∧
    runNov2023.id = rideMar2024.id ∧ runNov2023 ≠ rideMar2024 := by
  refine ⟨by with_unfolding_all rfl, by with_unfolding_all rfl, by with_unfolding_all rfl,
    by rfl, by decide⟩

/-- C6 fails on the code: after the ride of March 2024 is appended to the
store that holds the run of November 2023, the lookup by the id of the ride
returns the run, the older entry with the same id. -/
theorem lookup_of_new_id_returns_older_entry :
    storeAfterOne.workouts = [.live runNov2023] ∧
    storeAfterTwo.workouts = storeAfterOne.workouts ++ [.live rideMar2024] ∧
    App.find storeAfterTwo.workouts rideMar2024.id = .ok (some (.live runNov2023)) ∧
    App._goToPopup storeAfterTwo (some rideMar2024.id) = .ok (some (.live runNov2023)) ∧
    runNov2023 ≠ rideMar2024 := by
  refine ⟨by with_unfolding_all rfl, by with_unfolding_all rfl, by with_unfolding_all rfl,
    by with_unfolding_all rfl, by decide⟩

/-! ## Loading from storage -/

/-- C7 as stated does not hold: with a stored text that `JSON.parse` rejects,
`_getLocalStorage` on a fresh page ends in a `SyntaxError`. -/
theorem getLocalStorage_malformed_throws :
    App._getLocalStorage { workouts := [], localStorage := some (.malformed "[1,") } =
      .error .syntaxError := rfl

/-- C7, amended: with no item stored, `_getLocalStorage` raises no error and
leaves `#workouts` as it was, the empty list on a fresh page; with a stored
text that `JSON.parse` rejects, the `SyntaxError` leaves `_getLocalStorage`. -/
theorem getLocalStorage_absent_or_malformed (workouts : List Entry) :
    App._getLocalStorage { workouts := workouts, localStorage := none } =
      .ok { workouts := workouts, localStorage := none } ∧
    App._getLocalStorage State.initial = .ok State.initial ∧ State.initial.workouts = [] ∧
    ∀ raw, App._getLocalStorage { workouts := workouts, localStorage := some (.malformed raw) } =
      .error .syntaxError :=
  ⟨rfl, rfl, rfl, fun _ => rfl⟩

end Mapty
